import Mathlib

/-!
Verification development for the Airbnb market-analyzer data pipeline
(`src/data_cleaner.py`, `src/analyzers/market_overview.py`,
`src/analyzers/seasonality.py`, `src/analyzers/competitive.py`).

Modelling conventions (shallow embedding):
* A pandas cell is a `Scalar`: a missing marker (`NaN`/`None`/`NaT`), a
  number, a string, a boolean, or a parsed calendar date.  Columns that are
  numeric-or-missing after cleaning are modelled as `Option ℚ` (`none` = NaN),
  boolean-or-missing columns as `Option Bool`.
* Python floats are idealised as exact rationals `ℚ`; the decimal strings in
  the data are exactly representable, so the idealisation does not change any
  comparison or arithmetic the claims touch.  `float('inf')`, `'nan'`-style
  literals and underscore digit separators accepted by Python's `float()` are
  outside the modelled grammar.
* A DataFrame is a `List` of row records.  The embedding models the full
  Inside Airbnb schema: all optional columns the code probes with
  `col in df.columns` are present, matching the spec's raw-record shape.
* pandas NaN semantics used by the code: `NaN >= x` and `NaN > x` are false,
  `groupby` drops NaN keys, `mean`/`median` of an empty selection is NaN,
  and in Python `bool(float('nan'))` is `True` while `bool(0.0)` is `False`
  (`pyTruthy`).
-/

/-- Calendar date as a (year, month, day) triple, the model of a pandas
`Timestamp` (the code only uses whole-day resolution). -/
structure Ymd where
  year : Int
  month : Nat
  day : Nat
deriving DecidableEq, Repr

/-- A raw pandas cell: missing marker, float, string, bool, or datetime. -/
inductive Scalar where
  | missing
  | num (q : ℚ)
  | str (s : String)
  | bool (b : Bool)
  | date (d : Ymd)
deriving DecidableEq, Repr

/-- Model of `pd.isna` on a cell (`NaN`, `None` and `NaT` are all "na"). -/
def scalarIsNa : Scalar → Bool
  | .missing => true
  | _ => false

/-- Pack an optional rational back into a float cell (`none` becomes NaN). -/
def Scalar.ofOpt : Option ℚ → Scalar
  | none => .missing
  | some q => .num q

/-- Pack an optional boolean into a cell (`none` becomes NaN). -/
def Scalar.ofOptB : Option Bool → Scalar
  | none => .missing
  | some b => .bool b

/-- Pack an optional date into a cell (`none` becomes NaT). -/
def Scalar.ofOptD : Option Ymd → Scalar
  | none => .missing
  | some d => .date d

/-- Numeric view of a float cell: `NaN` and non-numeric cells give `none`. -/
def scalarToQ : Scalar → Option ℚ
  | .num q => some q
  | _ => none

/-- Model of `series >= c` on a float column: NaN compares false. -/
def scalarGeB (v : Scalar) (c : ℚ) : Bool :=
  match v with
  | .num q => decide (c ≤ q)
  | _ => false

/-- Model of `series <= c` on a float column: NaN compares false. -/
def scalarLeB (v : Scalar) (c : ℚ) : Bool :=
  match v with
  | .num q => decide (q ≤ c)
  | _ => false

/-- Model of `x >= c` for an optional numeric value: NaN compares false. -/
def optGeB (x : Option ℚ) (c : ℚ) : Bool :=
  match x with
  | some v => decide (c ≤ v)
  | none => false

/-- Model of `x > c` for an optional numeric value: NaN compares false. -/
def optGtB (x : Option ℚ) (c : ℚ) : Bool :=
  match x with
  | some v => decide (c < v)
  | none => false

/-- NaN-propagating subtraction on float values. -/
def optSub : Option ℚ → Option ℚ → Option ℚ
  | some x, some y => some (x - y)
  | _, _ => none

/-- NaN-propagating multiplication on float values. -/
def optMul : Option ℚ → Option ℚ → Option ℚ
  | some x, some y => some (x * y)
  | _, _ => none

/-- NaN-propagating division on float values.  Division by zero (which in
floating point yields `inf`/`nan`) is modelled as missing; every use in the
code guards the denominator, so the case is unreachable there. -/
def optDiv : Option ℚ → Option ℚ → Option ℚ
  | some x, some y => if y = 0 then none else some (x / y)
  | _, _ => none

/-- Python truthiness of a float: `0.0` is falsy, every other float —
including `NaN` — is truthy. -/
def pyTruthy : Option ℚ → Bool
  | none => true
  | some q => decide (q ≠ 0)

/-- Insert into a list sorted by the boolean relation `le`. -/
def insLe (le : α → α → Bool) (a : α) : List α → List α
  | [] => [a]
  | x :: t => if le a x then a :: x :: t else x :: insLe le a t

/-- Insertion sort by the boolean relation `le`; models the ascending key
sort performed by `groupby` / `sort_values`. -/
def sortLe (le : α → α → Bool) (l : List α) : List α :=
  l.foldr (insLe le) []

/-- Mean of a float series after NaN removal: empty input is NaN. -/
def meanQ (l : List ℚ) : Option ℚ :=
  if l.length = 0 then none else some (l.sum / l.length)

/-- Median of a float series after NaN removal, as pandas computes it:
middle element of the sorted values, or the average of the two middle
elements for an even count; empty input is NaN. -/
def medianQ (l : List ℚ) : Option ℚ :=
  let s := sortLe (fun a b => decide (a ≤ b)) l
  let n := s.length
  if n = 0 then none
  else if n % 2 = 1 then some (s.getD (n / 2) 0)
  else some ((s.getD (n / 2 - 1) 0 + s.getD (n / 2) 0) / 2)

/-- Python whitespace for `str.strip` (space, tab, newline, CR, VT, FF). -/
def isPyWs (c : Char) : Bool :=
  c = ' ' || c = '\t' || c = '\n' || c = '\r' || c = '\x0b' || c = '\x0c'

/-- Model of Python `str.strip()` on a character list. -/
def pyStrip (cs : List Char) : List Char :=
  ((cs.dropWhile isPyWs).reverse.dropWhile isPyWs).reverse

/-- Value of a digit string, most significant first. -/
def digitsToNat (ds : List Char) : Nat :=
  ds.foldl (fun a c => a * 10 + (c.toNat - 48)) 0

/-- Optional leading sign of a numeral: returns the sign and the rest. -/
def parseSign : List Char → ℚ × List Char
  | '+' :: t => (1, t)
  | '-' :: t => (-1, t)
  | cs => (1, cs)

/-- Exponent suffix of a Python float literal: absent (`some (0, rest)`),
or `e`/`E` followed by an optionally signed digit run (empty digit run is a
parse error, `none`). -/
def parseExpPart : List Char → Option (Int × List Char)
  | [] => some (0, [])
  | c :: t =>
    if c = 'e' || c = 'E' then
      let (sgn, t1) : Int × List Char :=
        match t with
        | '+' :: u => (1, u)
        | '-' :: u => (-1, u)
        | u => (1, u)
      let ds := t1.takeWhile Char.isDigit
      let rest := t1.dropWhile Char.isDigit
      if ds.isEmpty then none else some (sgn * (digitsToNat ds : Int), rest)
    else some (0, c :: t)

/-- Scale a rational by a power of ten with an integer exponent. -/
def applyExp (q : ℚ) (e : Int) : ℚ :=
  if 0 ≤ e then q * 10 ^ e.toNat else q / 10 ^ (-e).toNat

/-- Model of Python `float(s)` on the decimal-literal grammar:
optional sign, digits with an optional fractional part (at least one digit
overall), optional `e`/`E` exponent; anything else fails.  (`inf`/`nan`
words and underscore separators are outside the modelled grammar.) -/
def parseFloatQ (cs : List Char) : Option ℚ :=
  let (sgn, cs1) := parseSign cs
  let ip := cs1.takeWhile Char.isDigit
  let cs2 := cs1.dropWhile Char.isDigit
  let (fp, cs3) :=
    match cs2 with
    | '.' :: t => (t.takeWhile Char.isDigit, t.dropWhile Char.isDigit)
    | _ => (([] : List Char), cs2)
  if ip.length + fp.length = 0 then none
  else
    match parseExpPart cs3 with
    | none => none
    | some (e, rest) =>
      if rest.isEmpty then
        some (applyExp (sgn * ((digitsToNat (ip ++ fp) : ℚ) / 10 ^ fp.length)) e)
      else none

/-- Model of `clean_price` (`data_cleaner.py`): missing stays missing;
otherwise stringify, drop `$` and `,`, strip, and parse as a float, with a
parse failure giving NaN.  For an already-numeric cell `str(x)` is Python's
shortest round-tripping repr (it contains no `$` or `,`), so
`float(str(x))` returns the number itself.  A boolean or datetime cell
stringifies to a non-numeral (`"True"`, `"2024-01-01 00:00:00"`), which
`float()` rejects, giving NaN. -/
def clean_price : Scalar → Option ℚ
  | .missing => none
  | .num q => some q
  | .str s => parseFloatQ (pyStrip ((s.data.filter (· ≠ '$')).filter (· ≠ ',')))
  | .bool _ => none
  | .date _ => none

/-- Parser state for the JSON string-array grammar used by `parse_amenities`.
The accumulator lists are kept in reverse order. -/
inductive JState where
  | start
  | expectItem (acc : List String) (allowEnd : Bool)
  | inStr (cur : List Char) (acc : List String)
  | esc (cur : List Char) (acc : List String)
  | afterItem (acc : List String)
  | finished (acc : List String)
  | failed
deriving Repr

/-- One character of the JSON string-array parser. -/
def jsonStep (st : JState) (c : Char) : JState :=
  match st with
  | .start =>
    if isPyWs c then .start
    else if c = '[' then .expectItem [] true
    else .failed
  | .expectItem acc allowEnd =>
    if isPyWs c then .expectItem acc allowEnd
    else if c = '"' then .inStr [] acc
    else if c = ']' ∧ allowEnd then .finished acc
    else .failed
  | .inStr cur acc =>
    if c = '"' then .afterItem (String.mk cur.reverse :: acc)
    else if c = '\\' then .esc cur acc
    else .inStr (c :: cur) acc
  | .esc cur acc => .inStr (c :: cur) acc
  | .afterItem acc =>
    if isPyWs c then .afterItem acc
    else if c = ',' then .expectItem acc false
    else if c = ']' then .finished acc
    else .failed
  | .finished acc => if isPyWs c then .finished acc else .failed
  | .failed => .failed

/-- Model of `json.loads` restricted to the shape `parse_amenities` accepts:
a JSON array whose elements are string literals.  Any other document — non-
array top level, non-string elements, malformed text — yields `none`, which
the caller turns into `[]` exactly as the `except`/`isinstance` branches do.
An escape `\c` is modelled as the literal character `c` (exact for the `\"`
and `\\` escapes occurring in the data). -/
def jsonStringArray (s : String) : Option (List String) :=
  match s.data.foldl jsonStep .start with
  | .finished acc => some acc.reverse
  | _ => none

/-- Model of `parse_amenities` (`data_cleaner.py`): missing gives `[]`;
a parsed string array keeps its order, drops falsy (empty) elements, and
strips each kept element; any parse failure or non-array gives `[]`.
A non-string cell (`json.loads` raises `TypeError` on a float) also
gives `[]`. -/
def parse_amenities : Scalar → List String
  | .str s =>
    match jsonStringArray s with
    | some items => (items.filter (fun a => a ≠ "")).map (fun a => String.mk (pyStrip a.data))
    | none => []
  | _ => []

/-- Day count of a civil date relative to 1970-01-01 (Hinnant's
days-from-civil algorithm with floor division); models the day arithmetic
behind `pd.Timestamp` subtraction and `.dt.dayofweek`. -/
def daysFromCivil (d : Ymd) : Int :=
  let y : Int := if d.month ≤ 2 then d.year - 1 else d.year
  let era : Int := Int.fdiv y 400
  let yoe : Int := y - era * 400
  let mp : Nat := if 2 < d.month then d.month - 3 else d.month + 9
  let doy : Nat := (153 * mp + 2) / 5 + d.day - 1
  let doe : Int := yoe * 365 + Int.fdiv yoe 4 - Int.fdiv yoe 100 + doy
  era * 146097 + doe - 719468

/-- Leap-year test of the Gregorian calendar. -/
def isLeap (y : Int) : Bool :=
  (y % 4 = 0 && y % 100 ≠ 0) || y % 400 = 0

/-- Number of days in a month, for date validation. -/
def daysInMonth (y : Int) (m : Nat) : Nat :=
  if m = 2 then (if isLeap y then 29 else 28)
  else if m = 4 ∨ m = 6 ∨ m = 9 ∨ m = 11 then 30
  else 31

/-- String of decimal digits, at least one. -/
def allDigits (cs : List Char) : Bool :=
  !cs.isEmpty && cs.all Char.isDigit

/-- Model of `pd.to_datetime(..., errors="coerce")` on the `YYYY-MM-DD`
strings the datasets carry: an invalid or differently-shaped value coerces
to `NaT` (`none`). -/
def parseYmd (s : String) : Option Ymd :=
  match s.splitOn "-" with
  | [ys, ms, ds] =>
    if allDigits ys.data ∧ allDigits ms.data ∧ allDigits ds.data then
      let y : Int := digitsToNat ys.data
      let m := digitsToNat ms.data
      let d := digitsToNat ds.data
      if 1 ≤ m ∧ m ≤ 12 ∧ 1 ≤ d ∧ d ≤ daysInMonth y m then some ⟨y, m, d⟩
      else none
    else none
  | _ => none

/-- Datetime coercion of a cell: an already-parsed datetime passes through,
a string is parsed, everything else (including missing) coerces to `NaT`. -/
def scalarToDate : Scalar → Option Ymd
  | .date d => some d
  | .str s => parseYmd s
  | _ => none

/-- Model of `.map({"t": True, "f": False})`: any other value — including
missing — maps to NaN. -/
def map_tf : Scalar → Option Bool
  | .str s => if s = "t" then some true else if s = "f" then some false else none
  | _ => none

/-- Cleaning thresholds from `settings.yaml` used by
`filter_active_listings` (config is read-only, injected). -/
structure CleanCfg where
  price_min : ℚ
  price_max : ℚ
  min_reviews : ℚ
deriving DecidableEq, Repr

/-- One row of the listings DataFrame.  The base columns model the raw
Inside Airbnb schema; the trailing columns are the ones the cleaning
pipeline (over)writes — on a raw table their content is arbitrary, since
`clean_listings` assigns them unconditionally. -/
structure ListingRow where
  id : Option ℚ
  price : Scalar
  latitude : Option ℚ
  longitude : Option ℚ
  room_type : Option String
  bedrooms : Option ℚ
  beds : Option ℚ
  number_of_reviews : Option ℚ
  availability_365 : Option ℚ
  availability_30 : Option ℚ
  accommodates : Option ℚ
  last_review : Scalar
  host_is_superhost : Scalar
  instant_bookable : Scalar
  amenities : Scalar
  price_per_person : Option ℚ
  est_booked_30 : Option ℚ
  est_monthly_revenue : Option ℚ
  last_review_dt : Option Ymd
  days_since_review : Option Int
  is_superhost : Option Bool
  is_instant_bookable : Option Bool
  amenities_list : List String
  amenity_count : Nat
deriving DecidableEq, Repr

/-- Keep-first deduplication by `id` with the ids seen so far accumulated;
pandas `drop_duplicates` treats NaN ids as equal to each other, which the
`Option` equality mirrors. -/
def dedupById (seen : List (Option ℚ)) : List ListingRow → List ListingRow
  | [] => []
  | r :: rest =>
    if r.id ∈ seen then dedupById seen rest
    else r :: dedupById (r.id :: seen) rest

/-- Model of `remove_duplicates`: drop later rows whose `id` was already
seen, keeping the first occurrence. -/
def remove_duplicates (rows : List ListingRow) : List ListingRow :=
  dedupById [] rows

/-- Per-row effect of `df["price"] = df["price"].apply(clean_price)`. -/
def price_row (r : ListingRow) : ListingRow :=
  { r with price := Scalar.ofOpt (clean_price r.price) }

/-- Column-wide price normalisation (step 2 of `clean_listings`). -/
def normalize_price (rows : List ListingRow) : List ListingRow :=
  rows.map price_row

/-- Model of `df.dropna(subset=["id", "price", "latitude", "longitude"])`:
keep rows whose critical fields are all non-missing. -/
def drop_critical (rows : List ListingRow) : List ListingRow :=
  rows.filter (fun r =>
    r.id.isSome && !scalarIsNa r.price && r.latitude.isSome && r.longitude.isSome)

/-- Group median used by `groupby("room_type")[col].transform("median")`:
rows in the NaN `room_type` group get a NaN median (groupby drops NaN
keys), and a group whose values are all NaN also gets NaN. -/
def median_for (rows : List ListingRow) (get : ListingRow → Option ℚ)
    (rt : Option String) : Option ℚ :=
  match rt with
  | none => none
  | some g => medianQ ((rows.filter (fun r => r.room_type = some g)).filterMap get)

/-- Per-row effect of `df["bedrooms"] = df["bedrooms"].fillna(medians).fillna(1)`. -/
def bedrooms_row (rows : List ListingRow) (r : ListingRow) : ListingRow :=
  { r with bedrooms := some (((r.bedrooms).orElse (fun _ => median_for rows (fun x => x.bedrooms) r.room_type)).getD 1) }

/-- Per-row effect of the analogous `beds` fill. -/
def beds_row (rows : List ListingRow) (r : ListingRow) : ListingRow :=
  { r with beds := some (((r.beds).orElse (fun _ => median_for rows (fun x => x.beds) r.room_type)).getD 1) }

/-- Column-wide bedrooms fill; the medians are computed on the same table
the fill runs over, as `transform` does. -/
def fill_bedrooms (rows : List ListingRow) : List ListingRow :=
  rows.map (bedrooms_row rows)

/-- Column-wide beds fill, running on the bedrooms-filled table (the
source mutates `df` between the two fills; the beds column is unaffected
by the bedrooms fill, so the medians agree). -/
def fill_beds (rows : List ListingRow) : List ListingRow :=
  rows.map (beds_row rows)

/-- Model of `handle_missing_values`: drop rows missing critical fields,
then fill `bedrooms` and `beds` with room-type group medians, falling back
to the constant 1. -/
def handle_missing_values (rows : List ListingRow) : List ListingRow :=
  fill_beds (fill_bedrooms (drop_critical rows))

/-- Price-bounds filter of `filter_active_listings`
(`price_min <= price <= price_max`, NaN fails both comparisons). -/
def filter_price (cfg : CleanCfg) (rows : List ListingRow) : List ListingRow :=
  rows.filter (fun r => scalarGeB r.price cfg.price_min && scalarLeB r.price cfg.price_max)

/-- Activity filter of `filter_active_listings`: at least `min_reviews`
reviews OR positive 365-day availability. -/
def filter_activity (cfg : CleanCfg) (rows : List ListingRow) : List ListingRow :=
  rows.filter (fun r =>
    optGeB r.number_of_reviews cfg.min_reviews || optGtB r.availability_365 0)

/-- Model of `filter_active_listings`: price bounds first, then the
reviews-or-availability activity criterion. -/
def filter_active_listings (cfg : CleanCfg) (rows : List ListingRow) : List ListingRow :=
  filter_activity cfg (filter_price cfg rows)

/-- Derived column `price_per_person = price / accommodates.replace(0, nan)`:
a zero party size yields NaN, not a division error. -/
def calc_price_per_person (r : ListingRow) : Option ℚ :=
  optDiv (scalarToQ r.price)
    (match r.accommodates with
     | some a => if a = 0 then none else some a
     | none => none)

/-- Derived column `est_booked_30 = 30 - availability_30`. -/
def calc_est_booked (r : ListingRow) : Option ℚ :=
  r.availability_30.map (fun a => 30 - a)

/-- Derived column `est_monthly_revenue = price * est_booked_30` (reads the
just-written `est_booked_30`, hence the recomputation here). -/
def calc_est_revenue (r : ListingRow) : Option ℚ :=
  optMul (scalarToQ r.price) (calc_est_booked r)

/-- Derived column `last_review_dt = pd.to_datetime(last_review, errors="coerce")`. -/
def calc_review_dt (r : ListingRow) : Option Ymd :=
  scalarToDate r.last_review

/-- Derived column `days_since_review = (today - last_review_dt).dt.days`,
with `today` the normalized current day passed in as a day number (the
model makes the clock an explicit argument). -/
def calc_days_since (today : Int) (r : ListingRow) : Option Int :=
  (calc_review_dt r).map (fun d => today - daysFromCivil d)

/-- Per-row effect of `add_calculated_fields`: all derived columns are
assigned unconditionally (every probed column exists in the schema). -/
def calc_row (today : Int) (r : ListingRow) : ListingRow :=
  { r with
    price_per_person := calc_price_per_person r
    est_booked_30 := calc_est_booked r
    est_monthly_revenue := calc_est_revenue r
    last_review_dt := calc_review_dt r
    days_since_review := calc_days_since today r
    is_superhost := map_tf r.host_is_superhost
    is_instant_bookable := map_tf r.instant_bookable }

/-- Model of `add_calculated_fields`. -/
def add_calculated_fields (today : Int) (rows : List ListingRow) : List ListingRow :=
  rows.map (calc_row today)

/-- Per-row effect of the amenity expansion step (`amenities_list` and
`amenity_count = len(amenities_list)`). -/
def amenity_row (r : ListingRow) : ListingRow :=
  { r with
    amenities_list := parse_amenities r.amenities
    amenity_count := (parse_amenities r.amenities).length }

/-- Model of step 6 of `clean_listings` (amenity parsing). -/
def parse_amenity_cols (rows : List ListingRow) : List ListingRow :=
  rows.map amenity_row

/-- Model of `clean_listings`: dedup, price normalisation, missing-value
handling, activity filtering, derived fields, amenity parsing — in the
source's order.  The clock is the explicit `today` argument. -/
def clean_listings (cfg : CleanCfg) (today : Int) (rows : List ListingRow) : List ListingRow :=
  parse_amenity_cols
    (add_calculated_fields today
      (filter_active_listings cfg
        (handle_missing_values
          (normalize_price
            (remove_duplicates rows)))))

/-- One row of the calendar DataFrame.  `date`, `price` and `available`
start as raw cells and are overwritten in place by `clean_calendar`; the
time-feature columns are assigned unconditionally. -/
structure CalRow where
  date : Scalar
  price : Scalar
  available : Scalar
  month : Option Nat
  day_of_week : Option Nat
  is_weekend : Bool
deriving DecidableEq, Repr

/-- Zero-indexed day of week (0 = Monday … 6 = Sunday) of a date, as
`.dt.dayofweek` computes it; 1970-01-01 was a Thursday (index 3). -/
def dayOfWeek (d : Ymd) : Nat :=
  (Int.emod (daysFromCivil d + 3) 7).toNat

/-- Per-row effect of the date-parsing step of `clean_calendar`: a column
that is already datetime passes through unchanged (the source's dtype
check), everything else is coerced with failures becoming `NaT`. -/
def cal_date_row (r : CalRow) : CalRow :=
  { r with date := Scalar.ofOptD (scalarToDate r.date) }

/-- Per-row effect of `df["price"] = df["price"].apply(clean_price)`. -/
def cal_price_row (r : CalRow) : CalRow :=
  { r with price := Scalar.ofOpt (clean_price r.price) }

/-- Per-row effect of `df["available"] = df["available"].map({"t": True, "f": False})`. -/
def cal_available_row (r : CalRow) : CalRow :=
  { r with available := Scalar.ofOptB (map_tf r.available) }

/-- Per-row effect of the three time-feature assignments: month, zero-based
day of week, and the Friday/Saturday weekend flag (`isin` is false on NaN). -/
def cal_time_row (r : CalRow) : CalRow :=
  let d := match r.date with | .date d => some d | _ => none
  let dow := d.map dayOfWeek
  { r with
    month := d.map (fun x => x.month)
    day_of_week := dow
    is_weekend := dow = some 4 ∨ dow = some 5 }

/-- Model of `df.dropna(subset=["date"])`. -/
def cal_drop_no_date (rows : List CalRow) : List CalRow :=
  rows.filter (fun r => !scalarIsNa r.date)

/-- Model of `clean_calendar`: date parsing, price normalisation, boolean
availability, time features, then dropping rows with no date. -/
def clean_calendar (rows : List CalRow) : List CalRow :=
  cal_drop_no_date
    (((rows.map cal_date_row).map cal_price_row).map cal_available_row
      |>.map cal_time_row)

/-- Seasonality configuration: the configured high/low season month lists. -/
structure SeasonCfg where
  high_season_months : List Nat
  low_season_months : List Nat
deriving DecidableEq, Repr

/-- One row of the cleaned calendar as the Seasonality Analyzer reads it:
the float `price` column (`Option ℚ`, NaN = `none`), the float `month`
column (NaN-able before the date drop, hence `Option`), and the boolean
weekend flag. -/
structure SCalRow where
  month : Option Nat
  price : Option ℚ
  is_weekend : Bool
deriving DecidableEq, Repr

/-- Model of `get_price_by_month`: drop NaN prices, group by month (NaN
month keys are dropped by `groupby`, keys come out ascending), and average
each group.  Only the `avg_price` column is consumed downstream; each
group is nonempty so its mean is well defined. -/
def get_price_by_month (cal : List SCalRow) : List (Nat × ℚ) :=
  let priced := cal.filterMap (fun r => r.price.map (fun p => (r.month, p)))
  let keys := sortLe (fun a b => decide (a ≤ b)) ((priced.filterMap (fun x => x.1)).dedup)
  keys.map (fun m =>
    let g := priced.filterMap (fun x => if x.1 = some m then some x.2 else none)
    (m, g.sum / g.length))

/-- Result record of `identify_peak_season`. -/
structure PeakSeason where
  high_season_months : List Nat
  low_season_months : List Nat
  high_season_avg_price : Option ℚ
  low_season_avg_price : Option ℚ
  seasonal_premium_pct : Option ℚ
deriving DecidableEq, Repr

/-- Model of `identify_peak_season`: mean of the monthly averages over the
configured high and low months, and
`premium = ((high - low) / low * 100) if low_avg else 0` — the Python
conditional, under which NaN is truthy and `0.0` falsy (`pyTruthy`). -/
def identify_peak_season (cfg : SeasonCfg) (cal : List SCalRow) : PeakSeason :=
  let pbm := get_price_by_month cal
  let high_avg := meanQ ((pbm.filter (fun x => cfg.high_season_months.contains x.1)).map (fun x => x.2))
  let low_avg := meanQ ((pbm.filter (fun x => cfg.low_season_months.contains x.1)).map (fun x => x.2))
  let premium := if pyTruthy low_avg
    then optMul (optDiv (optSub high_avg low_avg) low_avg) (some 100)
    else some 0
  ⟨cfg.high_season_months, cfg.low_season_months, high_avg, low_avg, premium⟩

/-- Result record of `get_weekend_vs_weekday_pricing`. -/
structure WeekendPricing where
  weekend_avg : Option ℚ
  weekday_avg : Option ℚ
  weekend_premium_pct : Option ℚ
  weekend_median : Option ℚ
  weekday_median : Option ℚ
deriving DecidableEq, Repr

/-- Model of `get_weekend_vs_weekday_pricing`: split the NaN-price-free
rows by the weekend flag and compare means, with
`premium = (... / weekday_avg * 100) if weekday_avg else 0` under Python
truthiness. -/
def get_weekend_vs_weekday_pricing (cal : List SCalRow) : WeekendPricing :=
  let priced := cal.filterMap (fun r => r.price.map (fun p => (r.is_weekend, p)))
  let wkend := (priced.filter (fun x => x.1)).map (fun x => x.2)
  let wkday := (priced.filter (fun x => !x.1)).map (fun x => x.2)
  let weekend_avg := meanQ wkend
  let weekday_avg := meanQ wkday
  let premium := if pyTruthy weekday_avg
    then optMul (optDiv (optSub weekend_avg weekday_avg) weekday_avg) (some 100)
    else some 0
  ⟨weekend_avg, weekday_avg, premium, medianQ wkend, medianQ wkday⟩

/-- One configured price segment: a half-open interval `[min, max)` and a
display label.  The configuration is an insertion-ordered mapping, modelled
as a list in declaration order. -/
structure SegmentDef where
  min : ℚ
  max : ℚ
  label : String
deriving DecidableEq, Repr

/-- Whether a price falls in a segment's half-open interval
`min <= price < max`; a NaN price fails every comparison. -/
def seg_matches (s : SegmentDef) (price : Option ℚ) : Bool :=
  match price with
  | some q => decide (s.min ≤ q) && decide (q < s.max)
  | none => false

/-- Model of `CompetitiveAnalyzer._assign_segment`: linear scan of the
configured segments in declaration order, returning the first matching
label, with the sentinel label "Other" when no interval contains the
price. -/
def _assign_segment (segs : List SegmentDef) (price : Option ℚ) : String :=
  match segs with
  | [] => "Other"
  | s :: rest => if seg_matches s price then s.label else _assign_segment rest price

/-- One row of the cleaned listings table as the Market Overview and
Competitive analyzers read it: numeric-or-missing columns become
`Option ℚ`, the superhost flag `Option Bool`; `segment` is the column
`add_segments_to_df` writes. -/
structure ALRow where
  id : Option ℚ
  host_id : Option ℚ
  price : Option ℚ
  review_scores_rating : Option ℚ
  number_of_reviews : Option ℚ
  is_superhost : Option Bool
  segment : Option String
deriving DecidableEq, Repr

/-- Configured segment labels in declaration order
(`[s["label"] for s in self._segments.values()]`). -/
def seg_labels (segs : List SegmentDef) : List String :=
  segs.map (fun s => s.label)

/-- One row of the `segment_by_price` summary. -/
structure SegStats where
  listings : Nat
  avg_price : Option ℚ
  median_price : Option ℚ
  avg_rating : Option ℚ
  pct : Option ℚ
deriving DecidableEq, Repr

/-- Rows of one segment group after assignment. -/
def seg_group (segs : List SegmentDef) (rows : List ALRow) (l : String) : List ALRow :=
  rows.filter (fun r => _assign_segment segs r.price = l)

/-- Aggregates of one segment group: non-NaN `id` count, mean/median price,
mean rating (all NaN-skipping), and percent of the total count.  A zero
total (every group empty of ids) makes the percentage NaN. -/
def seg_stats (segs : List SegmentDef) (rows : List ALRow) (total : Nat) (l : String) : SegStats :=
  let g := seg_group segs rows l
  let listings := (g.filterMap (fun r => r.id)).length
  { listings := listings
    avg_price := meanQ (g.filterMap (fun r => r.price))
    median_price := medianQ (g.filterMap (fun r => r.price))
    avg_rating := meanQ (g.filterMap (fun r => r.review_scores_rating))
    pct := if total = 0 then none else some ((listings : ℚ) / total * 100) }

/-- Model of `segment_by_price`: assign every listing a segment, group by
the assigned label (`groupby`'s key order does not survive the reindex, so
the key list is kept in first-occurrence order), compute per-group
aggregates and shares, then `reindex` to the configured declaration order
restricted to labels actually present
(`[o for o in order if o in summary.index]`). -/
def segment_by_price (segs : List SegmentDef) (rows : List ALRow) : List (String × SegStats) :=
  let assigned := rows.map (fun r => _assign_segment segs r.price)
  let keys := assigned.dedup
  let total := (keys.map (fun l => ((seg_group segs rows l).filterMap (fun r => r.id)).length)).sum
  ((seg_labels segs).filter (fun l => decide (l ∈ keys))).map
    (fun l => (l, seg_stats segs rows total l))

/-- Model of `add_segments_to_df`: a copy of the listings table with the
`segment` column assigned. -/
def add_segments_to_df (segs : List SegmentDef) (rows : List ALRow) : List ALRow :=
  rows.map (fun r => { r with segment := some (_assign_segment segs r.price) })

/-- Aggregates of one superhost group of `get_superhost_premium`. -/
structure HostGroupAgg where
  avg_price : Option ℚ
  median_price : Option ℚ
  avg_rating : Option ℚ
  avg_reviews : Option ℚ
  count : Nat
deriving DecidableEq, Repr

/-- Group aggregates for one boolean superhost key. -/
def host_group_agg (rows : List ALRow) (b : Bool) : HostGroupAgg :=
  let g := rows.filter (fun r => r.is_superhost = some b)
  { avg_price := meanQ (g.filterMap (fun r => r.price))
    median_price := medianQ (g.filterMap (fun r => r.price))
    avg_rating := meanQ (g.filterMap (fun r => r.review_scores_rating))
    avg_reviews := meanQ (g.filterMap (fun r => r.number_of_reviews))
    count := (g.filterMap (fun r => r.id)).length }

/-- Numeric payload of a successful superhost comparison. -/
structure SuperhostMetrics where
  superhost_avg_price : Option ℚ
  regular_avg_price : Option ℚ
  price_premium_pct : Option ℚ
  superhost_avg_rating : Option ℚ
  regular_avg_rating : Option ℚ
  superhost_count : Nat
  regular_count : Nat
deriving DecidableEq, Repr

/-- The three distinct shapes `get_superhost_premium` returns: the empty
dict `{}` when the `is_superhost` column is absent, the explicit
`{"note": "Insufficient data ..."}` result, or the numeric comparison. -/
inductive SuperhostResult where
  | empty
  | note
  | metrics (m : SuperhostMetrics)
deriving DecidableEq, Repr

/-- Model of `get_superhost_premium`.  `has_col` models
`"is_superhost" in self.df.columns`.  `groupby("is_superhost")` drops NaN
keys, so the group index holds `True`/`False` exactly when some row carries
that value; if either is missing the explicit insufficient-data note is
returned, otherwise the numeric comparison with
`price_premium_pct = (sh - reg) / reg * 100`. -/
def get_superhost_premium (has_col : Bool) (rows : List ALRow) : SuperhostResult :=
  if !has_col then .empty
  else
    let keys := (rows.filterMap (fun r => r.is_superhost)).dedup
    if !(decide (true ∈ keys)) || !(decide (false ∈ keys)) then .note
    else
      let sh := host_group_agg rows true
      let reg := host_group_agg rows false
      .metrics
        { superhost_avg_price := sh.avg_price
          regular_avg_price := reg.avg_price
          price_premium_pct := optMul (optDiv (optSub sh.avg_price reg.avg_price) reg.avg_price) (some 100)
          superhost_avg_rating := sh.avg_rating
          regular_avg_rating := reg.avg_rating
          superhost_count := sh.count
          regular_count := reg.count }

/-- Result record of `get_market_concentration`. -/
structure Concentration where
  hhi : ℚ
  top_10_host_share_pct : ℚ
  unique_hosts : Nat
deriving DecidableEq, Repr

/-- Host percentage shares
(`value_counts() / len(df) * 100`): one entry per distinct non-missing
`host_id` (``value_counts`` drops NaN).  `value_counts`'s descending order
only affects which entries `nlargest` would tie-break, not the sums taken
here, so the entries are kept in first-occurrence order and sorted where
the source sorts. -/
def host_shares (rows : List ALRow) : List ℚ :=
  let hosts := rows.filterMap (fun r => r.host_id)
  hosts.dedup.map (fun h => (hosts.count h : ℚ) / (rows.length : ℚ) * 100)

/-- Model of `get_market_concentration`: HHI as the sum of squared
percentage shares, the combined share of the 10 largest hosts, and the
distinct host count. -/
def get_market_concentration (rows : List ALRow) : Concentration :=
  let shares := host_shares rows
  { hhi := (shares.map (fun s => s ^ 2)).sum
    top_10_host_share_pct := ((sortLe (fun a b => decide (b ≤ a)) shares).take 10).sum
    unique_hosts := (rows.filterMap (fun r => r.host_id)).dedup.length }

/-- Read a heap cell: the heap is the list of live DataFrame objects, a
cell index is a Python object identity.  Reading a dangling index gives the
empty table (never exercised). -/
def cell_get (h : List (List α)) (i : Nat) : List α :=
  h.getD i []

/-- Imperative trace of `clean_listings` at the level of DataFrame object
identities: `df.copy()`, `drop_duplicates`, `dropna` and boolean-mask
subsetting each allocate a fresh object (append a cell); the column
assignments (`df["price"] = ...`, the two `fillna` writes,
`add_calculated_fields`, the amenity columns) write in place to the frame
they were handed (`List.set`).  Returns the final heap and the index of the
returned frame. -/
def clean_listings_prog (cfg : CleanCfg) (today : Int)
    (h : List (List ListingRow)) (a : Nat) : List (List ListingRow) × Nat :=
  let b := h.length
  let h1 := h ++ [cell_get h a]
  let c := h1.length
  let h2 := h1 ++ [remove_duplicates (cell_get h1 b)]
  let h3 := h2.set c (normalize_price (cell_get h2 c))
  let d := h3.length
  let h4 := h3 ++ [drop_critical (cell_get h3 c)]
  let h5 := h4.set d (fill_bedrooms (cell_get h4 d))
  let h6 := h5.set d (fill_beds (cell_get h5 d))
  let e := h6.length
  let h7 := h6 ++ [filter_price cfg (cell_get h6 d)]
  let f := h7.length
  let h8 := h7 ++ [filter_activity cfg (cell_get h7 e)]
  let h9 := h8.set f (add_calculated_fields today (cell_get h8 f))
  let h10 := h9.set f (parse_amenity_cols (cell_get h9 f))
  (h10, f)

/-- Imperative trace of `clean_calendar`: one copy allocation, six in-place
column writes to the copy, and a final `dropna` allocation. -/
def clean_calendar_prog (h : List (List CalRow)) (a : Nat) : List (List CalRow) × Nat :=
  let b := h.length
  let h1 := h ++ [cell_get h a]
  let h2 := h1.set b ((cell_get h1 b).map cal_date_row)
  let h3 := h2.set b ((cell_get h2 b).map cal_price_row)
  let h4 := h3.set b ((cell_get h3 b).map cal_available_row)
  let h5 := h4.set b ((cell_get h4 b).map cal_time_row)
  let c := h5.length
  let h6 := h5 ++ [cal_drop_no_date (cell_get h5 b)]
  (h6, c)

/-- Imperative trace of `add_segments_to_df`: `self.df.copy()` then one
in-place column write to the copy. -/
def add_segments_prog (segs : List SegmentDef)
    (h : List (List ALRow)) (a : Nat) : List (List ALRow) × Nat :=
  let b := h.length
  let h1 := h ++ [cell_get h a]
  let h2 := h1.set b (add_segments_to_df segs (cell_get h1 b))
  (h2, b)

/-- Example cleaning configuration for concrete runs. -/
def exCfg : CleanCfg := ⟨10, 1000, 1⟩

/-- Example raw listing row, with the derived columns holding arbitrary
junk (a raw table does not carry them; the pipeline overwrites them
unconditionally).  Fields whose derivation would involve rational
arithmetic are left missing so concrete runs stay kernel-computable. -/
def exRaw : ListingRow :=
  { id := some 1
    price := .num 150
    latitude := some 10
    longitude := some 20
    room_type := some "Entire home/apt"
    bedrooms := some 2
    beds := some 2
    number_of_reviews := some 10
    availability_365 := some 100
    availability_30 := none
    accommodates := none
    last_review := .missing
    host_is_superhost := .str "t"
    instant_bookable := .str "f"
    amenities := .missing
    price_per_person := none
    est_booked_30 := none
    est_monthly_revenue := none
    last_review_dt := none
    days_since_review := none
    is_superhost := none
    is_instant_bookable := none
    amenities_list := []
    amenity_count := 0 }

/-- The cleaned image of `exRaw` under `clean_listings exCfg 0`. -/
def exClean : ListingRow :=
  { exRaw with
    is_superhost := some true
    is_instant_bookable := some false }

/-- Season configuration whose low months see no calendar data. -/
def exSeasonCfg : SeasonCfg := ⟨[7], [1]⟩

/-- Calendar with data only in the high month 7: the low-season mean is
undefined (NaN). -/
def exCalHighOnly : List SCalRow := [⟨some 7, some 100, false⟩]

/-- Calendar whose low month 1 has mean price zero. -/
def exCalLowZero : List SCalRow := [⟨some 1, some 0, false⟩, ⟨some 7, some 100, false⟩]

/-- Calendar whose rows are all weekend rows: the weekday mean is NaN. -/
def exCalAllWeekend : List SCalRow := [⟨some 1, some 50, true⟩]

/-- Two-tier segment configuration with adjacent half-open intervals. -/
def exSegs : List SegmentDef := [⟨0, 100, "Budget"⟩, ⟨100, 200, "Mid-Range"⟩]

/-- Segment configuration declaring a tier ("Premium") that the data never
populates. -/
def exSegsGap : List SegmentDef := [⟨0, 100, "Budget"⟩, ⟨100, 200, "Premium"⟩]

/-- One listing priced inside the first tier only. -/
def exRowsBudget : List ALRow :=
  [⟨some 1, some 1, some 50, some 4.5, some 3, none, none⟩]

/-- Four listings split evenly between two hosts (each holds a 50% share). -/
def exRowsTwoHosts : List ALRow :=
  [⟨some 1, some 11, some 100, none, none, none, none⟩,
   ⟨some 2, some 11, some 110, none, none, none, none⟩,
   ⟨some 3, some 22, some 120, none, none, none, none⟩,
   ⟨some 4, some 22, some 130, none, none, none, none⟩]

/-- A listings table in which every row is a non-superhost. -/
def exRowsNoSuperhost : List ALRow :=
  [⟨some 1, some 11, some 100, some 4, some 5, some false, none⟩,
   ⟨some 2, some 11, some 120, some 5, some 2, some false, none⟩]

/-- Projection of the `id` column of a listings table. -/
def ids (rows : List ListingRow) : List (Option ℚ) :=
  rows.map (fun r => r.id)

/-- Shape invariant of a row emitted by `clean_listings`: the critical
fields are present, the price is a number inside the configured bounds,
the activity criterion holds, `bedrooms`/`beds` are filled, the price cell
re-parses to itself, and every derived column equals its recomputation
from the base columns. -/
def row_ok (cfg : CleanCfg) (today : Int) (r : ListingRow) : Prop :=
  r.id.isSome = true ∧
  scalarGeB r.price cfg.price_min = true ∧
  scalarLeB r.price cfg.price_max = true ∧
  r.latitude.isSome = true ∧
  r.longitude.isSome = true ∧
  r.bedrooms.isSome = true ∧
  r.beds.isSome = true ∧
  (optGeB r.number_of_reviews cfg.min_reviews || optGtB r.availability_365 0) = true ∧
  Scalar.ofOpt (clean_price r.price) = r.price ∧
  r.price_per_person = calc_price_per_person r ∧
  r.est_booked_30 = calc_est_booked r ∧
  r.est_monthly_revenue = calc_est_revenue r ∧
  r.last_review_dt = calc_review_dt r ∧
  r.days_since_review = calc_days_since today r ∧
  r.is_superhost = map_tf r.host_is_superhost ∧
  r.is_instant_bookable = map_tf r.instant_bookable ∧
  r.amenities_list = parse_amenities r.amenities ∧
  r.amenity_count = (parse_amenities r.amenities).length

/-- C6: `clean_price` maps a missing scalar to missing, an already-numeric
scalar to itself, a parseable currency string to its decimal value after
stripping the currency symbol and thousands separators ("$1,234.56" to
1234.56), and a non-missing unparseable scalar ("invalid", "") to missing
— always returning, never erroring. -/
theorem clean_price_contract :
    clean_price Scalar.missing = none ∧
    (∀ q : ℚ, clean_price (Scalar.num q) = some q) ∧
    clean_price (Scalar.str "$1,234.56") = some (1234.56 : ℚ) ∧
    clean_price (Scalar.str "invalid") = none ∧
    clean_price (Scalar.str "") = none := by
  refine ⟨rfl, fun q => rfl, ?_, by decide, by decide⟩
  rw [show clean_price (Scalar.str "$1,234.56") =
      some (applyExp ((1 : ℚ) * (((123456 : ℕ) : ℚ) / 10 ^ 2)) 0) from rfl]
  norm_num [applyExp]

/-- C3: segment assignment is total and first-match: a missing price gets
"Other"; if no configured interval matches, the result is "Other"; the
result is the label of the first interval with `min <= price < max` in
declaration order; and a price equal to a tier's `max` is not matched by
that tier (the scan moves past it to the following tiers). -/
theorem assign_segment_first_match :
    (∀ segs : List SegmentDef, _assign_segment segs none = "Other") ∧
    (∀ (segs : List SegmentDef) (p : Option ℚ),
      (∀ s ∈ segs, seg_matches s p = false) → _assign_segment segs p = "Other") ∧
    (∀ (segs : List SegmentDef) (p : Option ℚ) (i : Nat), i < segs.length →
      (∀ j, j < i → seg_matches (segs.getD j ⟨0, 0, "Other"⟩) p = false) →
      seg_matches (segs.getD i ⟨0, 0, "Other"⟩) p = true →
      _assign_segment segs p = (segs.getD i ⟨0, 0, "Other"⟩).label) ∧
    (∀ (s : SegmentDef) (rest : List SegmentDef) (q : ℚ), q = s.max →
      _assign_segment (s :: rest) (some q) = _assign_segment rest (some q)) := by
  refine ⟨?_, ?_, ?_, ?_⟩
  · intro segs
    induction segs with
    | nil => rfl
    | cons s rest ih => simpa [_assign_segment, seg_matches] using ih
  · intro segs p h
    induction segs with
    | nil => rfl
    | cons s rest ih =>
      have hs := h s (by simp)
      simp [_assign_segment, hs]
      exact ih (fun s' hs' => h s' (by simp [hs']))
  · intro segs p i
    induction segs generalizing i with
    | nil => intro h; exact absurd h (by simp)
    | cons s rest ih =>
      intro hi hbefore hmatch
      cases i with
      | zero =>
        simp only [List.getD_cons_zero] at hmatch ⊢
        simp [_assign_segment, hmatch]
      | succ i =>
        have h0 : seg_matches s p = false := by
          simpa using hbefore 0 (Nat.succ_pos i)
        simp only [List.getD_cons_succ] at hmatch ⊢
        simp only [_assign_segment, h0, if_false, Bool.false_eq_true]
        exact ih i (by simpa using hi)
          (fun j hj => by simpa using hbefore (j + 1) (Nat.succ_lt_succ hj)) hmatch
  · intro s rest q hq
    have : seg_matches s (some q) = false := by
      simp [seg_matches, hq]
    simp [_assign_segment, this]

/-- Witness for C3 at the two-tier configuration: the boundary price 100
falls in the second tier (half-open intervals), and a missing price gets
"Other". -/
theorem assign_segment_first_match_witness :
    _assign_segment exSegs (some 100) = "Mid-Range" ∧
    _assign_segment exSegs none = "Other" := by
  constructor
  · have h := assign_segment_first_match.2.2.1 exSegs (some 100) 1 (by decide)
      (by decide) (by decide)
    exact h.trans (by decide)
  · exact assign_segment_first_match.1 exSegs

/-- C10: with no `is_superhost` column at all, `get_superhost_premium`
returns the empty mapping, an outcome distinct from both the
insufficient-data note and any numeric result. -/
theorem superhost_premium_no_column :
    ∀ rows : List ALRow,
      get_superhost_premium false rows = SuperhostResult.empty ∧
      SuperhostResult.empty ≠ SuperhostResult.note ∧
      ∀ m, SuperhostResult.empty ≠ SuperhostResult.metrics m := by
  intro rows
  exact ⟨rfl, by simp, fun m => by simp⟩

/-- C9: on a table that has the `is_superhost` column, if either boolean
group is empty — in particular when every listing is non-superhost —
`get_superhost_premium` returns the explicit insufficient-data note, which
is never a numeric (or NaN-valued) premium result. -/
theorem superhost_premium_insufficient (rows : List ALRow)
    (h : (∀ r ∈ rows, r.is_superhost ≠ some true) ∨
         (∀ r ∈ rows, r.is_superhost ≠ some false)) :
    get_superhost_premium true rows = SuperhostResult.note ∧
    ∀ m, SuperhostResult.note ≠ SuperhostResult.metrics m := by
  refine ⟨?_, fun m => by simp⟩
  have hmem : ∀ b : Bool,
      (b ∈ (rows.filterMap (fun r => r.is_superhost)).dedup) ↔
        ∃ r ∈ rows, r.is_superhost = some b := by
    intro b
    simp [List.mem_dedup, List.mem_filterMap]
  rcases h with h | h
  · have hb : ¬ (true ∈ (rows.filterMap (fun r => r.is_superhost)).dedup) := by
      rw [hmem]
      rintro ⟨r, hr, he⟩
      exact h r hr he
    simp [get_superhost_premium, hb]
  · have hb : ¬ (false ∈ (rows.filterMap (fun r => r.is_superhost)).dedup) := by
      rw [hmem]
      rintro ⟨r, hr, he⟩
      exact h r hr he
    simp [get_superhost_premium, hb]

/-- Witness for C9: a table whose listings are all non-superhost produces
the insufficient-data note. -/
theorem superhost_premium_insufficient_witness :
    get_superhost_premium true exRowsNoSuperhost = SuperhostResult.note :=
  (superhost_premium_insufficient exRowsNoSuperhost (Or.inl (by decide))).1

/-- C2 (counterexample): on a calendar with no low-season data the
low-season mean is undefined (NaN), and `identify_peak_season` reports a
NaN premium, not 0; likewise a calendar with only weekend rows makes the
weekday mean undefined and the weekend premium NaN, not 0.  The Python
conditional `x if low_avg else 0` treats NaN as truthy, so the zero
fallback is not taken for an undefined mean. -/
theorem premium_nan_counterexample :
    (identify_peak_season exSeasonCfg exCalHighOnly).low_season_avg_price = none ∧
    (identify_peak_season exSeasonCfg exCalHighOnly).seasonal_premium_pct ≠ some 0 ∧
    (get_weekend_vs_weekday_pricing exCalAllWeekend).weekday_avg = none ∧
    (get_weekend_vs_weekday_pricing exCalAllWeekend).weekend_premium_pct ≠ some 0 := by
  refine ⟨rfl, ?_, rfl, ?_⟩ <;> decide

/-- C2 (amended): a zero low-season mean yields a premium of exactly 0;
an undefined (NaN) low-season mean propagates to a NaN premium — the
function returns in both cases.  The weekday mean behaves the same way in
`get_weekend_vs_weekday_pricing`. -/
theorem premium_zero_vs_nan (cfg : SeasonCfg) (cal : List SCalRow) :
    ((identify_peak_season cfg cal).low_season_avg_price = some 0 →
      (identify_peak_season cfg cal).seasonal_premium_pct = some 0) ∧
    ((identify_peak_season cfg cal).low_season_avg_price = none →
      (identify_peak_season cfg cal).seasonal_premium_pct = none) ∧
    ((get_weekend_vs_weekday_pricing cal).weekday_avg = some 0 →
      (get_weekend_vs_weekday_pricing cal).weekend_premium_pct = some 0) ∧
    ((get_weekend_vs_weekday_pricing cal).weekday_avg = none →
      (get_weekend_vs_weekday_pricing cal).weekend_premium_pct = none) := by
  refine ⟨?_, ?_, ?_, ?_⟩
  · intro h
    simp only [identify_peak_season] at h ⊢
    rw [h]
    simp [pyTruthy]
  · intro h
    simp only [identify_peak_season] at h ⊢
    rw [h]
    rcases hh : meanQ ((get_price_by_month cal).filter
        (fun x => cfg.high_season_months.contains x.1)).unzip.2 with _ | q
    all_goals simp [pyTruthy, optSub, optMul, optDiv, hh]
  · intro h
    simp only [get_weekend_vs_weekday_pricing] at h ⊢
    rw [h]
    simp [pyTruthy]
  · intro h
    simp only [get_weekend_vs_weekday_pricing] at h ⊢
    rw [h]
    rcases hh : meanQ (((cal.filterMap (fun r => r.price.map (fun p => (r.is_weekend, p)))).filter
        (fun x => x.1)).map (fun x => x.2)) with _ | q
    all_goals simp [pyTruthy, optSub, optMul, optDiv, hh]

/-- Witness for C2: the zero-low-mean calendar reports a premium of 0, and
the all-weekend calendar (undefined weekday mean) reports a NaN premium. -/
theorem premium_zero_vs_nan_witness :
    (identify_peak_season exSeasonCfg exCalLowZero).seasonal_premium_pct = some 0 ∧
    (get_weekend_vs_weekday_pricing exCalAllWeekend).weekend_premium_pct = none :=
  ⟨(premium_zero_vs_nan exSeasonCfg exCalLowZero).1 (by
      norm_num [identify_peak_season, get_price_by_month, meanQ, sortLe, insLe,
        exCalLowZero, exSeasonCfg, List.filterMap_cons, List.filter_cons,
        List.dedup_cons_of_not_mem]),
   (premium_zero_vs_nan exSeasonCfg exCalAllWeekend).2.2.2 (by
      norm_num [get_weekend_vs_weekday_pricing, meanQ, exCalAllWeekend,
        List.filterMap_cons, List.filter_cons])⟩

/-- C4 (counterexample): with a declared "Premium" tier that no listing
falls into, the `segment_by_price` summary contains only the populated
"Budget" row — the declared-but-empty segment is dropped by the reindex
(`[o for o in order if o in summary.index]`), contradicting the claim that
it still appears. -/
theorem segment_by_price_drops_empty_declared :
    "Premium" ∈ seg_labels exSegsGap ∧
    (segment_by_price exSegsGap exRowsBudget).map Prod.fst = ["Budget"] ∧
    "Premium" ∉ (segment_by_price exSegsGap exRowsBudget).map Prod.fst := by
  exact ⟨by decide, by decide, by decide⟩

/-- C4 (amended): the summary rows of `segment_by_price` are exactly the
configured labels that some listing was assigned to, in declaration
order; a segment declared in the configuration but empty in the data is
omitted (as is an unlisted "Other" bucket), rather than appearing in its
declared position. -/
theorem segment_by_price_declared_order (segs : List SegmentDef) (rows : List ALRow) :
    (segment_by_price segs rows).map Prod.fst =
      (seg_labels segs).filter
        (fun l => rows.any (fun r => _assign_segment segs r.price == l)) := by
  unfold segment_by_price
  rw [List.map_map]
  have hfst : (List.map (Prod.fst ∘ fun l =>
      (l, seg_stats segs rows
        (((rows.map (fun r => _assign_segment segs r.price)).dedup.map
          (fun l => ((seg_group segs rows l).filterMap (fun r => r.id)).length)).sum) l))
      ((seg_labels segs).filter
        (fun l => decide (l ∈ (rows.map (fun r => _assign_segment segs r.price)).dedup)))) =
      ((seg_labels segs).filter
        (fun l => decide (l ∈ (rows.map (fun r => _assign_segment segs r.price)).dedup))) := by
    simp [Function.comp_def]
  rw [hfst]
  apply List.filter_congr
  intro l _
  have hiff : (decide (l ∈ (rows.map (fun r => _assign_segment segs r.price)).dedup) = true) ↔
      (rows.any (fun r => _assign_segment segs r.price == l) = true) := by
    simp only [decide_eq_true_eq, List.mem_dedup, List.mem_map, List.any_eq_true, beq_iff_eq]
  exact (by decide : ∀ a b : Bool, ((a = true) ↔ (b = true)) → a = b) _ _ hiff

/-- C8: none of the modelled transformations writes to the caller's frame:
running the imperative traces of `clean_listings`, `clean_calendar` and
`add_segments_to_df` on a one-cell heap holding the input table leaves
that cell untouched and returns a freshly allocated cell. -/
theorem no_input_mutation (cfg : CleanCfg) (today : Int) (t : List ListingRow)
    (u : List CalRow) (segs : List SegmentDef) (v : List ALRow) :
    (cell_get (clean_listings_prog cfg today [t] 0).1 0 = t ∧
      (clean_listings_prog cfg today [t] 0).2 ≠ 0) ∧
    (cell_get (clean_calendar_prog [u] 0).1 0 = u ∧
      (clean_calendar_prog [u] 0).2 ≠ 0) ∧
    (cell_get (add_segments_prog segs [v] 0).1 0 = v ∧
      (add_segments_prog segs [v] 0).2 ≠ 0) := by
  exact ⟨⟨rfl, Nat.succ_ne_zero 4⟩, ⟨rfl, Nat.succ_ne_zero 1⟩, ⟨rfl, Nat.succ_ne_zero 0⟩⟩

/-- Summing a function over the distinct members of a list equals summing
over its deduplicated list. -/
theorem sum_toFinset_eq_dedup (l : List ℚ) (f : ℚ → ℚ) :
    ∑ h ∈ l.toFinset, f h = (l.dedup.map f).sum := by
  induction l with
  | nil => simp
  | cons a t ih =>
    by_cases h : a ∈ t
    · rw [List.toFinset_cons, List.dedup_cons_of_mem h, ← ih,
        Finset.insert_eq_self.mpr (List.mem_toFinset.mpr h)]
    · rw [List.toFinset_cons, List.dedup_cons_of_not_mem h, List.map_cons, List.sum_cons,
        ← ih, Finset.sum_insert (by simpa using h)]

/-- C5: the `hhi` of `get_market_concentration` is the sum over all
(distinct, non-missing) hosts of the square of that host's percentage
share — listing count over table size times 100, on the 0–100 scale; on
the table where two hosts hold two listings each (50% shares),
`hhi = 50² + 50² = 5000`. -/
theorem hhi_is_squared_percentage_shares :
    (get_market_concentration exRowsTwoHosts).hhi = 5000 ∧
    ∀ rows : List ALRow,
      (get_market_concentration rows).hhi =
        ∑ h ∈ (rows.filterMap (fun r => r.host_id)).toFinset,
          (((rows.filterMap (fun r => r.host_id)).count h : ℚ) / rows.length * 100) ^ 2 := by
  constructor
  · norm_num [get_market_concentration, host_shares, exRowsTwoHosts,
      List.filterMap_cons, List.dedup_cons_of_mem, List.dedup_cons_of_not_mem,
      List.count_cons]
  · intro rows
    rw [sum_toFinset_eq_dedup]
    simp [get_market_concentration, host_shares, List.map_map, Function.comp_def]

/-- A cell passing the `>=` price filter is a number bounded below. -/
theorem scalarGeB_num {v : Scalar} {c : ℚ} (h : scalarGeB v c = true) :
    ∃ q, v = Scalar.num q ∧ c ≤ q := by
  cases v with
  | num q =>
    refine ⟨q, rfl, ?_⟩
    simpa [scalarGeB] using h
  | missing => simp [scalarGeB] at h
  | str s => simp [scalarGeB] at h
  | bool b => simp [scalarGeB] at h
  | date d => simp [scalarGeB] at h

/-- Every row emitted by `clean_listings` satisfies the `row_ok` shape
invariant: the dropna and filter stages established the field conditions,
and the two final stages wrote every derived column from the (unchanged)
base columns. -/
theorem clean_listings_row_ok (cfg : CleanCfg) (today : Int) (rows : List ListingRow) :
    ∀ r ∈ clean_listings cfg today rows, row_ok cfg today r := by
  intro r hr
  unfold clean_listings at hr
  simp only [parse_amenity_cols, List.mem_map] at hr
  obtain ⟨r1, hr1, rfl⟩ := hr
  simp only [add_calculated_fields, List.mem_map] at hr1
  obtain ⟨r2, hr2, rfl⟩ := hr1
  simp only [filter_active_listings, filter_activity, List.mem_filter] at hr2
  obtain ⟨hr2, hact⟩ := hr2
  simp only [filter_price, List.mem_filter] at hr2
  obtain ⟨hr2, hprice⟩ := hr2
  simp only [handle_missing_values, fill_beds, List.mem_map] at hr2
  obtain ⟨r3, hr3, rfl⟩ := hr2
  simp only [fill_bedrooms, List.mem_map] at hr3
  obtain ⟨r4, hr4, rfl⟩ := hr3
  simp only [drop_critical, List.mem_filter, Bool.and_eq_true] at hr4
  obtain ⟨_, ⟨⟨⟨hid, hna⟩, hlat⟩, hlon⟩⟩ := hr4
  simp only [Bool.and_eq_true] at hprice
  obtain ⟨hge, hle⟩ := hprice
  have hge' : scalarGeB r4.price cfg.price_min = true := hge
  obtain ⟨q, hq, _⟩ := scalarGeB_num hge'
  unfold row_ok
  refine ⟨hid, hge, hle, hlat, hlon, rfl, rfl, hact, ?_, rfl, rfl, rfl, rfl, rfl, rfl,
    rfl, rfl, rfl⟩
  show Scalar.ofOpt (clean_price r4.price) = r4.price
  rw [hq]
  rfl

/-- C1: every row of a table returned by `clean_listings` has non-missing
id, price, latitude and longitude; its price is a number within the
configured inclusive bounds; and it satisfies the activity criterion —
at least the configured minimum review count or positive 365-day
availability. -/
theorem clean_listings_invariant (cfg : CleanCfg) (today : Int) (rows : List ListingRow) :
    ∀ r ∈ clean_listings cfg today rows,
      r.id.isSome = true ∧
      (∃ q : ℚ, r.price = Scalar.num q ∧ cfg.price_min ≤ q ∧ q ≤ cfg.price_max) ∧
      r.latitude.isSome = true ∧
      r.longitude.isSome = true ∧
      (optGeB r.number_of_reviews cfg.min_reviews = true ∨
        optGtB r.availability_365 0 = true) := by
  intro r hr
  obtain ⟨hid, hge, hle, hlat, hlon, _, _, hact, _⟩ := clean_listings_row_ok cfg today rows r hr
  obtain ⟨q, hq, hcq⟩ := scalarGeB_num hge
  refine ⟨hid, ⟨q, hq, hcq, ?_⟩, hlat, hlon, ?_⟩
  · rw [hq] at hle
    simpa [scalarLeB] using hle
  · simpa [Bool.or_eq_true] using hact

/-- Witness for C1: a concrete raw table cleans to a row satisfying the
invariant. -/
theorem clean_listings_invariant_witness :
    exClean.id.isSome = true ∧
    (∃ q : ℚ, exClean.price = Scalar.num q ∧ exCfg.price_min ≤ q ∧ q ≤ exCfg.price_max) ∧
    exClean.latitude.isSome = true ∧
    exClean.longitude.isSome = true ∧
    (optGeB exClean.number_of_reviews exCfg.min_reviews = true ∨
      optGtB exClean.availability_365 0 = true) :=
  clean_listings_invariant exCfg 0 [exRaw] exClean (by decide)

/-- Mapping a function that fixes every member of a list is the identity. -/
theorem list_map_self {f : α → α} : ∀ {l : List α}, (∀ a ∈ l, f a = a) → l.map f = l := by
  intro l
  induction l with
  | nil => intro _; rfl
  | cons a t ih =>
    intro h
    simp only [List.map_cons, h a (List.mem_cons_self a t),
      ih (fun x hx => h x (List.mem_cons_of_mem a hx))]

/-- Filtering by a predicate that holds on every member is the identity. -/
theorem list_filter_self {p : α → Bool} : ∀ {l : List α}, (∀ a ∈ l, p a = true) → l.filter p = l := by
  intro l
  induction l with
  | nil => intro _; rfl
  | cons a t ih =>
    intro h
    simp only [List.filter_cons, h a (List.mem_cons_self a t), if_true,
      ih (fun x hx => h x (List.mem_cons_of_mem a hx))]

/-- Pointwise-equal functions map lists equally. -/
theorem list_map_congr {f g : α → β} : ∀ {l : List α}, (∀ a ∈ l, f a = g a) → l.map f = l.map g := by
  intro l
  induction l with
  | nil => intro _; rfl
  | cons a t ih =>
    intro h
    simp only [List.map_cons, h a (List.mem_cons_self a t),
      ih (fun x hx => h x (List.mem_cons_of_mem a hx))]

/-- The ids of a keep-first dedup run are distinct, and avoid the seen set. -/
theorem dedupById_spec : ∀ (l : List ListingRow) (seen : List (Option ℚ)),
    (ids (dedupById seen l)).Nodup ∧ ∀ r ∈ dedupById seen l, r.id ∉ seen := by
  intro l
  induction l with
  | nil => intro seen; simp [dedupById, ids]
  | cons a t ih =>
    intro seen
    by_cases h : a.id ∈ seen
    · simpa [dedupById, h] using ih seen
    · have iht := ih (a.id :: seen)
      rw [dedupById, if_neg h]
      constructor
      · show (a.id :: ids (dedupById (a.id :: seen) t)).Nodup
        refine List.nodup_cons.mpr ⟨?_, iht.1⟩
        intro hmem
        obtain ⟨r, hr, he⟩ := List.mem_map.mp hmem
        exact iht.2 r hr (he ▸ List.mem_cons_self _ _)
      · intro r hr
        rcases List.mem_cons.mp hr with rfl | hr'
        · exact h
        · exact fun hs => iht.2 r hr' (List.mem_cons_of_mem _ hs)

/-- Keep-first dedup is the identity on a table with distinct ids avoiding
the seen set. -/
theorem dedupById_eq_self : ∀ (l : List ListingRow) (seen : List (Option ℚ)),
    (ids l).Nodup → (∀ r ∈ l, r.id ∉ seen) → dedupById seen l = l := by
  intro l
  induction l with
  | nil => intro seen _ _; rfl
  | cons a t ih =>
    intro seen hnd hs
    have hnd2 : (a.id :: ids t).Nodup := hnd
    have hnd' := List.nodup_cons.mp hnd2
    rw [dedupById, if_neg (hs a (List.mem_cons_self a t))]
    congr 1
    refine ih (a.id :: seen) hnd'.2 ?_
    intro r hr
    rw [List.mem_cons]
    rintro (he | hseen)
    · exact hnd'.1 (he ▸ List.mem_map.mpr ⟨r, hr, rfl⟩)
    · exact hs r (List.mem_cons_of_mem a hr) hseen

/-- A column map that does not touch `id` preserves the id column. -/
theorem ids_map_eq (f : ListingRow → ListingRow) (hf : ∀ r, (f r).id = r.id)
    (l : List ListingRow) : ids (l.map f) = ids l := by
  simp only [ids, List.map_map]
  exact list_map_congr (fun a _ => hf a)

/-- The ids of a cleaned table are pairwise distinct: the dedup stage makes
them distinct and every later stage only filters rows or rewrites non-id
columns. -/
theorem clean_listings_ids_nodup (cfg : CleanCfg) (today : Int) (rows : List ListingRow) :
    (ids (clean_listings cfg today rows)).Nodup := by
  unfold clean_listings
  have h0 : (ids (remove_duplicates rows)).Nodup := (dedupById_spec rows []).1
  have h1 : (ids (normalize_price (remove_duplicates rows))).Nodup := by
    rw [normalize_price, ids_map_eq price_row (fun r => rfl)]; exact h0
  have h2 : (ids (drop_critical (normalize_price (remove_duplicates rows)))).Nodup :=
    h1.sublist (List.Sublist.map _ (List.filter_sublist _))
  have h3 : (ids (fill_bedrooms (drop_critical (normalize_price (remove_duplicates rows))))).Nodup := by
    rw [fill_bedrooms, ids_map_eq
      (bedrooms_row (drop_critical (normalize_price (remove_duplicates rows))))
      (fun r => rfl)]
    exact h2
  have h4 : (ids (handle_missing_values (normalize_price (remove_duplicates rows)))).Nodup := by
    unfold handle_missing_values
    rw [fill_beds, ids_map_eq
      (beds_row (fill_bedrooms (drop_critical (normalize_price (remove_duplicates rows)))))
      (fun r => rfl)]
    exact h3
  have h5 : (ids (filter_active_listings cfg (handle_missing_values (normalize_price (remove_duplicates rows))))).Nodup := by
    unfold filter_active_listings filter_activity filter_price
    exact (h4.sublist (List.Sublist.map _ (List.filter_sublist _))).sublist
      (List.Sublist.map _ (List.filter_sublist _))
  have h6 : (ids (add_calculated_fields today (filter_active_listings cfg (handle_missing_values (normalize_price (remove_duplicates rows)))))).Nodup := by
    rw [add_calculated_fields, ids_map_eq (calc_row today) (fun r => rfl)]; exact h5
  rw [parse_amenity_cols, ids_map_eq amenity_row (fun r => rfl)]
  exact h6

/-- Re-normalising an already-numeric price cell is the identity. -/
theorem price_row_self {r : ListingRow} (h : Scalar.ofOpt (clean_price r.price) = r.price) :
    price_row r = r := by
  unfold price_row
  rw [h]

/-- The bedrooms fill is the identity on a row whose bedrooms are present. -/
theorem bedrooms_row_self (L : List ListingRow) {r : ListingRow}
    (h : r.bedrooms.isSome = true) : bedrooms_row L r = r := by
  obtain ⟨b, hb⟩ := Option.isSome_iff_exists.mp h
  have step : bedrooms_row L r = { r with bedrooms := some b } := by
    unfold bedrooms_row
    rw [hb]
    rfl
  rw [step, ← hb]

/-- The beds fill is the identity on a row whose beds are present. -/
theorem beds_row_self (L : List ListingRow) {r : ListingRow}
    (h : r.beds.isSome = true) : beds_row L r = r := by
  obtain ⟨b, hb⟩ := Option.isSome_iff_exists.mp h
  have step : beds_row L r = { r with beds := some b } := by
    unfold beds_row
    rw [hb]
    rfl
  rw [step, ← hb]

/-- Recomputing derived columns that already hold their recomputation is
the identity. -/
theorem calc_row_self {today : Int} {r : ListingRow}
    (h1 : r.price_per_person = calc_price_per_person r)
    (h2 : r.est_booked_30 = calc_est_booked r)
    (h3 : r.est_monthly_revenue = calc_est_revenue r)
    (h4 : r.last_review_dt = calc_review_dt r)
    (h5 : r.days_since_review = calc_days_since today r)
    (h6 : r.is_superhost = map_tf r.host_is_superhost)
    (h7 : r.is_instant_bookable = map_tf r.instant_bookable) :
    calc_row today r = r := by
  unfold calc_row
  rw [← h1, ← h2, ← h3, ← h4, ← h5, ← h6, ← h7]

/-- Re-parsing amenity columns already in final form is the identity. -/
theorem amenity_row_self {r : ListingRow}
    (h1 : r.amenities_list = parse_amenities r.amenities)
    (h2 : r.amenity_count = (parse_amenities r.amenities).length) :
    amenity_row r = r := by
  unfold amenity_row
  rw [← h2, ← h1]

/-- C7: `clean_listings` is idempotent on its own output (with the same
configuration and clock): re-feeding a cleaned table through the cleaner
returns the very same table — same rows, same values; dedup, dropna, the
fills, the filters and every derived-column recomputation (the
"re-parsing of fields already in final form") are all identities there. -/
theorem clean_listings_idempotent (cfg : CleanCfg) (today : Int) (rows : List ListingRow) :
    clean_listings cfg today (clean_listings cfg today rows) =
      clean_listings cfg today rows := by
  have hok := clean_listings_row_ok cfg today rows
  have hnd := clean_listings_ids_nodup cfg today rows
  set O := clean_listings cfg today rows with hO
  have h1 : remove_duplicates O = O :=
    dedupById_eq_self O [] hnd (by intro r _; simp)
  have h2 : normalize_price O = O :=
    list_map_self (fun r hr => by
      obtain ⟨_, _, _, _, _, _, _, _, hpr, _⟩ := hok r hr
      exact price_row_self hpr)
  have h3 : drop_critical O = O :=
    list_filter_self (fun r hr => by
      obtain ⟨hid, hge, _, hlat, hlon, _⟩ := hok r hr
      obtain ⟨q, hq, _⟩ := scalarGeB_num hge
      simp [hid, hlat, hlon, hq, scalarIsNa])
  have h4 : fill_bedrooms O = O :=
    list_map_self (fun r hr => by
      obtain ⟨_, _, _, _, _, hbed, _⟩ := hok r hr
      exact bedrooms_row_self O hbed)
  have h5 : fill_beds O = O :=
    list_map_self (fun r hr => by
      obtain ⟨_, _, _, _, _, _, hbeds, _⟩ := hok r hr
      exact beds_row_self O hbeds)
  have h6 : filter_price cfg O = O :=
    list_filter_self (fun r hr => by
      obtain ⟨_, hge, hle, _⟩ := hok r hr
      simp [hge, hle])
  have h7 : filter_activity cfg O = O :=
    list_filter_self (fun r hr => by
      obtain ⟨_, _, _, _, _, _, _, hact, _⟩ := hok r hr
      exact hact)
  have h8 : add_calculated_fields today O = O :=
    list_map_self (fun r hr => by
      obtain ⟨_, _, _, _, _, _, _, _, _, hppp, heb, her, hdt, hds, hsh, hib, _⟩ := hok r hr
      exact calc_row_self hppp heb her hdt hds hsh hib)
  have h9 : parse_amenity_cols O = O :=
    list_map_self (fun r hr => by
      obtain ⟨_, _, _, _, _, _, _, _, _, _, _, _, _, _, _, _, hal, hac⟩ := hok r hr
      exact amenity_row_self hal hac)
  show parse_amenity_cols (add_calculated_fields today (filter_active_listings cfg
    (handle_missing_values (normalize_price (remove_duplicates O))))) = O
  rw [h1, h2]
  unfold handle_missing_values
  rw [h3, h4, h5]
  unfold filter_active_listings
  rw [h6, h7, h8, h9]
